import Mathlib

/-
Verification of the freehand-stroke outline engine (`src/index.ts`).

The source is a TypeScript module built around the class `FreehandSpline`
and the entry point `getStroke`.  We embed it shallowly over the real
numbers: JavaScript float arithmetic is idealised as exact real
arithmetic (the spec states its numeric properties "within floating
tolerance", which exact real equality subsumes), JS arrays of numbers
become tuples/lists of reals, and the one place where the code produces
the JS value `undefined` inside the returned array is modelled with
`Option`.

The helper modules `./vec` and `./utils` are imported by the source but
are not part of the given sources; their definitions below are modelled
from the spec (each carries a doc comment saying so).  Everything else
is a direct transcription of `src/index.ts`.
-/

noncomputable section

namespace Freehand

/-- A 2D vector, the `[x, y]` arrays produced by the `vec` helpers. -/
abbrev V2 : Type := ℝ × ℝ

/-- A stroke point `[x, y, pressure]` as stored in `FreehandSpline.points`. -/
abbrev Point : Type := ℝ × ℝ × ℝ

/-- Projection of a 3-component point onto its `[x, y]` part.  The `vec`
helpers read only indices 0 and 1 of their arguments. -/
def xy (p : Point) : V2 := (p.1, p.2.1)

/-- Modelled from the spec: `clamp` from the missing `./utils` module,
`clamp(n, a, b) = max(a, min(n, b))` (spec §4.3 "clamp `easing(pressure)`
to `[0,1]`"). -/
def clamp (n lo hi : ℝ) : ℝ := max lo (min n hi)

/-- Modelled from the spec: `lerp` from the missing `./utils` module,
linear interpolation `a + (b - a) * t` (spec §4.3 "interpolate"). -/
def lerp (a b t : ℝ) : ℝ := a + (b - a) * t

/-- Modelled from the spec: `vec.add`, componentwise vector sum. -/
def vadd (a b : V2) : V2 := (a.1 + b.1, a.2 + b.2)

/-- Modelled from the spec: `vec.sub`, componentwise vector difference. -/
def vsub (a b : V2) : V2 := (a.1 - b.1, a.2 - b.2)

/-- Modelled from the spec: `vec.vec(A, B)`, the vector from `A` to `B`. -/
def vvec (a b : V2) : V2 := (b.1 - a.1, b.2 - a.2)

/-- Modelled from the spec: `vec.mul`, scalar multiple of a vector. -/
def vmul (a : V2) (n : ℝ) : V2 := (a.1 * n, a.2 * n)

/-- Modelled from the spec: `vec.dpr`, the dot product. -/
def vdpr (a b : V2) : ℝ := a.1 * b.1 + a.2 * b.2

/-- Modelled from the spec: `vec.per`, the perpendicular `[A[1], -A[0]]`
used for the left/right offset direction (spec §4.4 "project ...
perpendicular to travel direction"). -/
def vper (a : V2) : V2 := (a.2, -a.1)

/-- Modelled from the spec: `vec.len`, the Euclidean length. -/
def vlen (a : V2) : ℝ := Real.sqrt (a.1 ^ 2 + a.2 ^ 2)

/-- Modelled from the spec: `vec.dist`, the Euclidean distance
(spec §4.1 `distance = hypot(Δx, Δy)`). -/
def vdist (a b : V2) : ℝ := vlen (vsub a b)

/-- Modelled from the spec: `vec.uni`, normalisation to a unit vector
(spec §4.5 "the unit gradient"). -/
def vuni (a : V2) : V2 := (a.1 / vlen a, a.2 / vlen a)

/-- Modelled from the spec: `vec.med`, the midpoint of two vectors
(spec §4.5 step 3 "repeated mediant unit-vector averaging"). -/
def vmed (a b : V2) : V2 := vmul (vadd a b) 0.5

/-- Modelled from the spec: `vec.lrp(A, B, t)`, linear interpolation
between positions (spec §4.1 "linear interpolation between the previous
output position and the current raw input position"). -/
def vlrp (a b : V2) (t : ℝ) : V2 := vadd a (vmul (vvec a b) t)

/-- Modelled from the spec: `vec.rotAround(A, C, r)`, rotation of `A`
around the centre `C` by the angle `r` (spec §4.5 step 4 "rotating by
`π·t` ... around the corner point"; the source passes a fourth argument
equal to the third, which the rotation ignores). -/
def vrotAround (a c : V2) (r : ℝ) : V2 :=
  let s := Real.sin r
  let co := Real.cos r
  let px := a.1 - c.1
  let py := a.2 - c.2
  (px * co - py * s + c.1, px * s + py * co + c.2)

/-- The recognised `StrokeOptions` keys together with the constructor's
`looped` parameter, with the defaults destructured at the top of the
`FreehandSpline` constructor.  The taper options and `last` are accepted
by the source but never read by the code paths below, so they are not
modelled. -/
structure StrokeOptions where
  size : ℝ := 8
  thinning : ℝ := 0.5
  smoothing : ℝ := 0.5
  streamline : ℝ := 0.5
  simulatePressure : Bool := true
  easing : ℝ → ℝ := id
  looped : Bool := false

/-- `Math.trunc`: truncation of a real toward zero, as an integer. -/
def jsTrunc (x : ℝ) : ℤ := if 0 ≤ x then ⌊x⌋ else ⌈x⌉

/-- The four control-point indices `(p0, p1, p2, p3)` computed by
`getSplinePoint` and `getSplinePointGradient` from the parameter and the
length `l` of the points array.  JavaScript's `%` is the truncated
remainder, hence `Int.tmod`. -/
def splineIndices (looped : Bool) (l : ℤ) (index : ℝ) : ℤ × ℤ × ℤ × ℤ :=
  let d := jsTrunc index
  if looped then
    let p1 := d
    let p2 := Int.tmod (p1 + 1) l
    let p3 := Int.tmod (p2 + 1) l
    let p0 := if 1 ≤ p1 then p1 - 1 else l - 1
    (p0, p1, p2, p3)
  else
    let p1 := min (d + 1) (l - 1)
    let p2 := min (p1 + 1) (l - 1)
    let p3 := min (p2 + 1) (l - 1)
    let p0 := p1 - 1
    (p0, p1, p2, p3)

/-- Array access `points[i]` with an integer index.  The model returns
the zero point out of bounds; this default is only about integer
indices from finite spline parameters (the amended C7 shows every
in-program finite parameter yields in-bounds indices).  The genuinely
crashing access — `points[NaN]` followed by a thrown TypeError when the
spline is evaluated at `trav / 0` on a zero-length segment — is
modelled where it arises, in `resampleGo`, which returns `none`
there. -/
def getPt (pts : List Point) (i : ℤ) : Point :=
  if h : 0 ≤ i ∧ i.toNat < pts.length then pts.get ⟨i.toNat, h.2⟩ else (0, 0, 0)

/-- `FreehandSpline.getSplinePoint`: Catmull-Rom-style evaluation of the
centreline (all three stored components) at a fractional index. -/
def getSplinePoint (pts : List Point) (looped : Bool) (index : ℝ) : Point :=
  let l : ℤ := pts.length
  let d := jsTrunc index
  let t : ℝ := index - d
  let i := splineIndices looped l index
  let P0 := getPt pts i.1
  let P1 := getPt pts i.2.1
  let P2 := getPt pts i.2.2.1
  let P3 := getPt pts i.2.2.2
  let tt := t * t
  let ttt := tt * t
  let q1 := -ttt + 2 * tt - t
  let q2 := 3 * ttt - 5 * tt + 2
  let q3 := -3 * ttt + 4 * tt + t
  let q4 := ttt - tt
  (0.5 * (P0.1 * q1 + P1.1 * q2 + P2.1 * q3 + P3.1 * q4),
   0.5 * (P0.2.1 * q1 + P1.2.1 * q2 + P2.2.1 * q3 + P3.2.1 * q4),
   0.5 * (P0.2.2 * q1 + P1.2.2 * q2 + P2.2.2 * q3 + P3.2.2 * q4))

/-- `FreehandSpline.getSplinePointGradient`: derivative of the same
basis at a fractional index. -/
def getSplinePointGradient (pts : List Point) (looped : Bool) (index : ℝ) : Point :=
  let l : ℤ := pts.length
  let d := jsTrunc index
  let t : ℝ := index - d
  let i := splineIndices looped l index
  let P0 := getPt pts i.1
  let P1 := getPt pts i.2.1
  let P2 := getPt pts i.2.2.1
  let P3 := getPt pts i.2.2.2
  let tt := t * t
  let q1 := -3 * tt + 4 * t - 1
  let q2 := 9 * tt - 10 * t
  let q3 := -9 * tt + 8 * t + 1
  let q4 := 3 * tt - 2 * t
  (0.5 * (P0.1 * q1 + P1.1 * q2 + P2.1 * q3 + P3.1 * q4),
   0.5 * (P0.2.1 * q1 + P1.2.1 * q2 + P2.2.1 * q3 + P3.2.1 * q4),
   0.5 * (P0.2.2 * q1 + P1.2.2 * q2 + P2.2.2 * q3 + P3.2.2 * q4))

/-- `FreehandSpline.getStrokeRadius`: pressure-to-half-width map.  The
JS guard `if (!thinning)` fires exactly on `thinning = 0` for real
inputs. -/
def getStrokeRadius (o : StrokeOptions) (pressure : ℝ) : ℝ :=
  if o.thinning = 0 then o.size / 2
  else
    (if o.thinning < 0 then
       lerp o.size (o.size + o.size * clamp o.thinning (-0.95) (-0.05))
         (clamp (o.easing pressure) 0 1)
     else
       lerp (o.size - o.size * clamp o.thinning 0.05 0.95) o.size
         (clamp (o.easing pressure) 0 1)) / 2

/-- The constructor's streamline loop after the first point:
`p0 = [...vec.lrp(p0, pts[i], 1 - streamline), pts[i][2]]`. -/
def streamlineAux (streamline : ℝ) : Point → List Point → List Point
  | _, [] => []
  | p0, p :: rest =>
      let q2 := vlrp (xy p0) (xy p) (1 - streamline)
      let q : Point := (q2.1, q2.2, p.2.2)
      q :: streamlineAux streamline q rest

/-- The streamlined points stored in `this.points` by the constructor
(for a nonempty input; the empty case is handled at the top level where
the JS destructuring produces `undefined`). -/
def streamlinePoints (pts : List Point) (streamline : ℝ) : List Point :=
  match pts with
  | [] => []
  | p :: rest => p :: streamlineAux streamline p rest

/-- Per-segment distances `this.lengths`: `lengths[i]` is the distance
between consecutive stored points `i` and `i + 1`. -/
def segLengths : List Point → List ℝ
  | p :: q :: rest => vdist (xy p) (xy q) :: segLengths (q :: rest)
  | _ => []

/-- The constructor's pressure-simulation pass: walking consecutive
pairs left to right it overwrites `points[i][2]` with
`min(1, pp + (min(1 - d/size, 1) - pp) * (min(d/size, 1) / 2))` and
carries the result as the next `pp`; the last point is left untouched. -/
def simulatePass (size : ℝ) : ℝ → List Point → List Point
  | _, [] => []
  | _, [p] => [p]
  | pp, p :: q :: rest =>
      let d := vdist (xy p) (xy q)
      let np := min 1 (pp + (min (1 - d / size) 1 - pp) * (min (d / size) 1 / 2))
      (p.1, p.2.1, np) :: simulatePass size np (q :: rest)

/-- `this.points` as left by the constructor on a nonempty input:
streamlined, then (when `simulatePressure`) pressure-simulated with the
initial `pp = 0.5`. -/
def setupPoints (pts : List Point) (o : StrokeOptions) : List Point :=
  let s := streamlinePoints pts o.streamline
  if o.simulatePressure then simulatePass o.size 0.5 s else s

/-- The claim's description of the simulated-pressure recurrence, as a
function of the consecutive distances: seeded at `0.5`, each stored
pressure is `min(1, pp + (min(1 - d/size, 1) - pp) * min(d/size, 1)/2)`
and becomes the next `pp`.  Stated from the claim's words, to be
compared with the constructor pass `simulatePass`. -/
def specSimPressures (size : ℝ) : ℝ → List ℝ → List ℝ
  | _, [] => []
  | pp, d :: ds =>
      let np := min 1 (pp + (min (1 - d / size) 1 - pp) * (min (d / size) 1 / 2))
      np :: specSimPressures size np ds

/-- The pressure component of a stored point. -/
def pressureOf (p : Point) : ℝ := p.2.2

/-- A resampled centreline sample: the spline point (3 components) and
its unit gradient (`vec.uni` returns the `[x, y]` part). -/
structure Resample where
  point : Point
  gradient : V2

/-- Placeholder sample used only for `headD`/`getD` style access that
the theorems show is in range. -/
def defaultResample : Resample := ⟨(0, 0, 0), (0, 0)⟩

/-- Number of iterations of the inner `while (trav <= length)` loop of
`getOutlineShape`, which starts at `trav = error` and advances by
`step = size / 4`.  For `step ≤ 0` the JS loop does not terminate; the
model returns 0 there and every theorem about the resampler assumes
`0 < size`, so that branch is never exercised. -/
def sampleCount (err len step : ℝ) : ℕ :=
  if err ≤ len ∧ 0 < step then (⌊(len - err) / step⌋).toNat + 1 else 0

/-- The "evenly spaced points along the center spline" loop of
`getOutlineShape`: for each segment it emits samples at parameters
`i + trav/length` for `trav = error, error + size/4, ...` while
`trav ≤ length`, carrying the leftover `error` and the cumulative
`traveled` across segments.  Each sample is paired with the value
`traveled + trav` that the source tests against `size / 2` for the
`short` gradient rewrite.

Fallibility: when a sample falls on a zero-length segment the source
divides by zero — `trav / 0` is `NaN` (or `±Infinity`), `Math.trunc` of
it is not a valid index, `points[...]` is `undefined`, and
`points[p0][0]` throws a TypeError.  The model returns `none` in that
case (`len = 0` with at least one sample due); this happens exactly
when the first streamlined segment has length 0 (for example coincident
leading input points, or any input with `streamline = 1`), since the
carried `error` is strictly positive after the first segment and a
positive `error` produces no sample on a zero-length segment. -/
def resampleGo (pts : List Point) (looped : Bool) (size : ℝ) :
    ℕ → ℝ → ℝ → List ℝ → Option (List (Resample × ℝ))
  | _, _, _, [] => some []
  | i, err, traveled, len :: rest =>
      let step := size / 4
      let cnt := sampleCount err len step
      if len = 0 ∧ 0 < cnt then none
      else
        (resampleGo pts looped size (i + 1) (err + (cnt : ℝ) * step - len)
          (traveled + len) rest).map fun tail =>
          ((List.range cnt).map fun (k : ℕ) =>
            let trav := err + (k : ℝ) * step
            let idx := (i : ℝ) + trav / len
            (⟨getSplinePoint pts looped idx,
              vuni (xy (getSplinePointGradient pts looped idx))⟩,
             traveled + trav)) ++ tail

/-- Index of the first sample whose cumulative distance exceeds
`size / 2`, where the source flips `short` off and rewrites the earlier
gradients. -/
def shortIdx (size : ℝ) : List (Resample × ℝ) → Option ℕ
  | [] => none
  | rc :: rest =>
      if size / 2 < rc.2 then some 0 else (shortIdx size rest).map Nat.succ

/-- The `short` gradient rewrite: when some sample's cumulative distance
first exceeds `size / 2`, all earlier samples get that sample's
gradient. -/
def applyShort (size : ℝ) (l : List (Resample × ℝ)) : List Resample :=
  match shortIdx size l with
  | none => l.map Prod.fst
  | some j =>
      let g := (((l.drop j).headD (defaultResample, 0)).1).gradient
      (l.take j).map (fun rc => ⟨rc.1.point, g⟩) ++ (l.drop j).map Prod.fst

/-- `results.slice(-3)`: the last up-to-three elements. -/
def lastThree (l : List Resample) : List Resample := l.drop (l.length - 3)

/-- The final sample appended to `results`: the spline point at
parameter `points.length - 1` with a gradient folding `vec.med` over
the last three samples, starting from the unit gradient at
`points.length - 1.1`. -/
def finalSample (o : StrokeOptions) (points : List Point) (samples : List Resample) : Resample :=
  ⟨getSplinePoint points o.looped ((points.length : ℝ) - 1),
   (lastThree samples).foldl (fun acc r => vmed acc r.gradient)
     (vuni (xy (getSplinePointGradient points o.looped ((points.length : ℝ) - 1.1))))⟩

/-- The full `results` list of `getOutlineShape`: the resampled points,
with the `short` rewrite applied, followed by the final sample; `none`
when the resampling loop threw (zero-length first segment). -/
def resampleResults (o : StrokeOptions) (points : List Point) : Option (List Resample) :=
  match resampleGo points o.looped o.size 0 0 0 (segLengths points) with
  | none => none
  | some raw =>
      let samples := applyShort o.size raw
      some (samples ++ [finalSample o points samples])

/-- The mutable state threaded through the main loop of
`getOutlineShape`: the two side polylines, the tracking anchors
`l0`/`r0`, the last computed offset directions `tlu`/`tru` and the
previous committed offset directions `plu`/`pru`. -/
structure BuildState where
  left : List V2
  right : List V2
  l0 : Option V2
  r0 : Option V2
  tlu : Option V2
  tru : Option V2
  plu : Option V2
  pru : Option V2

/-- All-empty initial state (the JS variables start `undefined` and the
spline lists empty). -/
def initState : BuildState := ⟨[], [], none, none, none, none, none, none⟩

/-- The values taken by `t` in the JS loops
`for (let t = 0; t <= 1; t += 0.25)` (0.25 is exact in binary floating
point, so the loop runs exactly five times). -/
def fanTs : List ℝ := [0, 0.25, 0.5, 0.75, 1]

/-- One side's decision in the regular (non-corner) branch: given the
anchor (`l0`/`r0`), the stored offset direction (`tlu`/`tru`), the
stored previous direction (`plu`/`pru`) and the new projected point,
return (commit?, new stored offset direction, stored previous direction
when no commit happens).  Mirrors the source lines 251-277. -/
def sideDecision (o : StrokeOptions) (n i : ℕ) (gradient : V2)
    (anchor tuOld puOld : Option V2) (tNew : V2) :
    Bool × Option V2 × Option V2 :=
  match anchor with
  | none => (true, tuOld, puOld)
  | some a =>
      if i = n - 1 then (true, tuOld, puOld)
      else
        let tu := vuni (vvec a tNew)
        match puOld with
        | none => (false, some tu, some tu)
        | some _ =>
            if 0 < vdpr tu gradient ∧ o.size * o.smoothing < vdist a tNew then
              (true, some tu, puOld)
            else (false, some tu, puOld)

/-- One iteration of the main loop of `getOutlineShape` at index `i`
(`n = results.length`, `prevG = results[i - 1].gradient`, `cur =
results[i]`, `nextG = results[i + 1].gradient`).  The sharp-corner
branch (`i > 0 && dpr < 0`) emits the two radial fans, sets `l0` to the
last left fan point and — as in the source, where both conditionals
assign `plu` — updates only `plu`, never `pru` or `r0`.  The regular
branch projects `tl`/`tr` and commits each side according to
`sideDecision`. -/
def buildStep (o : StrokeOptions) (n : ℕ) (prevG : V2) (cur : Resample)
    (nextG : V2) (i : ℕ) (s : BuildState) : BuildState :=
  let point := cur.point
  let gradient := cur.gradient
  let dprv := vdpr gradient nextG
  if 0 < i ∧ dprv < 0 then
    let v := vmul (vper prevG) (getStrokeRadius o (pressureOf point))
    let l1 := vadd (xy point) v
    let r1 := vsub (xy point) v
    let plu1 := match s.l0 with
      | some a => some (vuni (vvec a l1))
      | none => s.plu
    let plu2 := match s.r0 with
      | some a => some (vuni (vvec a r1))
      | none => plu1
    let fanL := fanTs.map fun t => vrotAround l1 (xy point) (Real.pi * t)
    let fanR := fanTs.map fun t => vrotAround r1 (xy point) (-(Real.pi * t))
    { left := s.left ++ fanL
      right := s.right ++ fanR
      l0 := fanL.getLast?
      r0 := s.r0
      tlu := s.tlu
      tru := s.tru
      plu := plu2
      pru := s.pru }
  else
    let r := vmul (vper gradient) (getStrokeRadius o (pressureOf point))
    let tl := vadd (xy point) r
    let tr := vsub (xy point) r
    let ld := sideDecision o n i gradient s.l0 s.tlu s.plu tl
    let rd := sideDecision o n i gradient s.r0 s.tru s.pru tr
    { left := s.left ++ (if ld.1 then [tl] else [])
      right := s.right ++ (if rd.1 then [tr] else [])
      l0 := if ld.1 then some tl else s.l0
      r0 := if rd.1 then some tr else s.r0
      tlu := ld.2.1
      tru := rd.2.1
      plu := if ld.1 then ld.2.1 else ld.2.2
      pru := if rd.1 then rd.2.1 else rd.2.2 }

/-- The main loop of `getOutlineShape`, `for (i = 0; i < results.length
- 1; i++)`: the last element is only ever used as `results[i + 1]`. -/
def buildGo (o : StrokeOptions) (n : ℕ) :
    ℕ → V2 → List Resample → BuildState → BuildState
  | _, _, [], s => s
  | _, _, [_], s => s
  | i, prevG, cur :: next :: rest, s =>
      buildGo o n (i + 1) cur.gradient (next :: rest)
        (buildStep o n prevG cur next.gradient i s)

/-- The assembled outline for a successful resample: build both sides,
then concatenate start cap ++ left ++ (empty end cap) ++ reversed
right.  The start cap rotates `rightSpline[0]` around
`results[0].point`. -/
def assembleOutline (o : StrokeOptions) (results : List Resample) : List V2 :=
  let s := buildGo o results.length 0 (0, 0) results initState
  let r0 := s.right.headD (0, 0)
  let tl := xy (results.headD defaultResample).point
  let startCap := fanTs.map fun t => vrotAround r0 tl (Real.pi * t)
  startCap ++ s.left ++ s.right.reverse

/-- `FreehandSpline.getOutlineShape` on a points list of length ≥ 2
(the caller handles the `points.length < 2` early return): `none` when
the resampling loop threw a TypeError, otherwise the assembled
outline. -/
def getOutlineShape (o : StrokeOptions) (points : List Point) : Option (List V2) :=
  match resampleResults o points with
  | none => none
  | some results => some (assembleOutline o results)

/-- The entry point `getStroke`: build the spline state and return the
outline.  For an empty input the constructor's `let [p0] = pts;
this.points = [p0]` stores the JS value `undefined` (modelled as the
inner `none`), and `getOutlineShape` returns that one-element array
unchanged; for a single point it returns the stored 3-component point.
Otherwise the outline vertices are the 2-component `[x, y]` arrays of
the builder — or the outer `none` when the resampler threw. -/
def getStroke (pts : List Point) (o : StrokeOptions) : Option (List (Option (List ℝ))) :=
  match pts with
  | [] => some [none]
  | p :: rest =>
      let points := setupPoints (p :: rest) o
      if points.length < 2 then
        some (points.map fun q => some [q.1, q.2.1, q.2.2])
      else
        (getOutlineShape o points).map fun out => out.map fun v => some [v.1, v.2]

/-- Modelled from the spec: §4.6 Short-Stroke Shape, absent from the
source.  For two endpoints it synthesizes the five-vertex lens
`[mid+⊥, first−axis, mid−⊥, last+axis, mid+⊥]` at the polar size
(`maxSize` when the two pressures agree, else interpolated toward
`minSize` by the last pressure); the random orientation for coincident
endpoints is irrelevant to the claims and the unit axis direction is
used directly. -/
def shortStrokeLens (p q : Point) (minSize maxSize : ℝ) : List V2 :=
  let sz := if pressureOf p = pressureOf q then maxSize
            else lerp maxSize minSize (pressureOf q)
  let dir := vuni (vvec (xy p) (xy q))
  let perp := vper dir
  let mid := vmed (xy p) (xy q)
  [vadd mid (vmul perp sz), vsub (xy p) (vmul dir sz), vsub mid (vmul perp sz),
   vadd (xy q) (vmul dir sz), vadd mid (vmul perp sz)]

/-! ### Basic facts about the helpers -/

lemma le_clamp (n lo hi : ℝ) : lo ≤ clamp n lo hi := le_max_left _ _

lemma clamp_le (n lo hi : ℝ) (h : lo ≤ hi) : clamp n lo hi ≤ hi :=
  max_le h (min_le_right _ _)

/-! ### C9: streamline = 0 reproduces the input -/

lemma streamlineAux_zero (p0 : Point) (l : List Point) :
    streamlineAux 0 p0 l = l := by
  induction l generalizing p0 with
  | nil => rfl
  | cons p rest ih =>
      have hq : ((p0.1 + (p.1 - p0.1) * (1 - 0),
          p0.2.1 + (p.2.1 - p0.2.1) * (1 - 0), p.2.2) : Point) = p := by
        have h1 : p0.1 + (p.1 - p0.1) * (1 - 0) = p.1 := by ring
        have h2 : p0.2.1 + (p.2.1 - p0.2.1) * (1 - 0) = p.2.1 := by ring
        rw [h1, h2]
      simp only [streamlineAux, vlrp, vadd, vmul, vvec, xy]
      rw [hq]
      exact congrArg (p :: ·) (ih p)

lemma streamlinePoints_zero (pts : List Point) : streamlinePoints pts 0 = pts := by
  cases pts with
  | nil => rfl
  | cons p rest => simp only [streamlinePoints, streamlineAux_zero]

/-- Claim C9: with `streamline = 0` the constructor stores the raw input
points unchanged — in fact the whole stored list (x, y and pressure)
equals the input, so in particular every stored x and y equals the
corresponding input x and y. -/
theorem c9_streamline_zero_identity (pts : List Point) :
    streamlinePoints pts 0 = pts :=
  streamlinePoints_zero pts

/-! ### C2 and C10: bounds on getStrokeRadius -/

/-- Claim C2: for pressure in [0,1], size ≥ 0 and thinning in [-1,1]
with the default identity easing, `getStrokeRadius` lies in [0, size],
and `thinning = 0` gives exactly `size / 2`. -/
theorem c2_radius_bounds (o : StrokeOptions) (p : ℝ) (he : o.easing = id)
    (hp0 : 0 ≤ p) (hp1 : p ≤ 1) (hs : 0 ≤ o.size)
    (ht0 : -1 ≤ o.thinning) (ht1 : o.thinning ≤ 1) :
    (0 ≤ getStrokeRadius o p ∧ getStrokeRadius o p ≤ o.size) ∧
      (o.thinning = 0 → getStrokeRadius o p = o.size / 2) := by
  have hpr : clamp (o.easing p) 0 1 = p := by
    rw [he]
    simp only [id_eq, clamp]
    rw [min_eq_left hp1, max_eq_right hp0]
  constructor
  · unfold getStrokeRadius
    split_ifs with h0 hneg
    · constructor
      · positivity
      · linarith
    · rw [hpr]
      have hc1 : clamp o.thinning (-0.95) (-0.05) ≤ -0.05 :=
        clamp_le _ _ _ (by norm_num)
      have hc0 : (-0.95 : ℝ) ≤ clamp o.thinning (-0.95) (-0.05) := le_clamp _ _ _
      unfold lerp
      constructor
      · nlinarith [mul_nonneg hs hp0]
      · nlinarith [mul_nonneg hs hp0, mul_nonneg hs (sub_nonneg.mpr hp1)]
    · rw [hpr]
      have hc1 : clamp o.thinning 0.05 0.95 ≤ 0.95 := clamp_le _ _ _ (by norm_num)
      have hc0 : (0.05 : ℝ) ≤ clamp o.thinning 0.05 0.95 := le_clamp _ _ _
      unfold lerp
      constructor
      · nlinarith [mul_nonneg hs hp0]
      · nlinarith [mul_nonneg hs hp0, mul_nonneg hs (sub_nonneg.mpr hp1)]
  · intro h0
    unfold getStrokeRadius
    rw [if_pos h0]

/-- A closed instance of C2 at pressure 0.3 with the default options. -/
theorem c2_radius_bounds_witness :
    (({} : StrokeOptions)).easing = id ∧
      ((0 ≤ getStrokeRadius {} 0.3 ∧ getStrokeRadius {} 0.3 ≤ ({} : StrokeOptions).size) ∧
        (({} : StrokeOptions).thinning = 0 → getStrokeRadius {} 0.3 = ({} : StrokeOptions).size / 2)) :=
  ⟨rfl, c2_radius_bounds {} 0.3 rfl (by norm_num) (by norm_num) (by norm_num)
    (by norm_num) (by norm_num)⟩

/-- Claim C10: for every real pressure (clamping handles values outside
[0,1]), every thinning and every easing, as long as size ≥ 0 the stroke
radius is at most `size / 2`. -/
theorem c10_radius_half_size (o : StrokeOptions) (p : ℝ) (hs : 0 ≤ o.size) :
    getStrokeRadius o p ≤ o.size / 2 := by
  have hpr0 : 0 ≤ clamp (o.easing p) 0 1 := le_clamp _ _ _
  have hpr1 : clamp (o.easing p) 0 1 ≤ 1 := clamp_le _ _ _ (by norm_num)
  unfold getStrokeRadius
  split_ifs with h0 hneg
  · exact le_refl _
  · have hc1 : clamp o.thinning (-0.95) (-0.05) ≤ -0.05 :=
      clamp_le _ _ _ (by norm_num)
    unfold lerp
    nlinarith [mul_nonneg hs hpr0]
  · have hc0 : (0.05 : ℝ) ≤ clamp o.thinning 0.05 0.95 := le_clamp _ _ _
    unfold lerp
    nlinarith [mul_nonneg hs (sub_nonneg.mpr hpr1)]

/-- A closed instance of C10 at a pressure outside [0, 1] and thinning
outside [-1, 1]. -/
theorem c10_radius_half_size_witness :
    (0 : ℝ) ≤ ({ thinning := 3 } : StrokeOptions).size ∧
      getStrokeRadius { thinning := 3 } (-2) ≤ ({ thinning := 3 } : StrokeOptions).size / 2 :=
  ⟨by norm_num, c10_radius_half_size { thinning := 3 } (-2) (by norm_num)⟩

/-! ### C3: empty input -/

/-- Claim C3 concerns the empty input.  The code does not raise, but it
does not return an empty outline either: the constructor's
`let [p0] = pts` destructures `undefined` out of the empty array and
pushes it, so `getStroke([])` returns (successfully, the outer `some`)
the one-element array `[undefined]` (modelled `[none]`), not `[]`. -/
theorem c3_empty_input_returns_undefined (o : StrokeOptions) :
    getStroke [] o = some [none] ∧
      ([none] : List (Option (List ℝ))).length = 1 ∧
      ([none] : List (Option (List ℝ))) ≠ [] :=
  ⟨rfl, rfl, by simp⟩

/-! ### C4: the simulated-pressure pass -/

lemma simulatePass_pressures (size pp : ℝ) (l : List Point) (h : l ≠ []) :
    (simulatePass size pp l).map pressureOf
      = specSimPressures size pp (segLengths l)
        ++ [pressureOf (l.getLastD (0, 0, 0))] := by
  induction l generalizing pp with
  | nil => exact absurd rfl h
  | cons p rest ih =>
      cases rest with
      | nil => simp [simulatePass, segLengths, specSimPressures, pressureOf]
      | cons q rest' =>
          simp only [simulatePass, segLengths, specSimPressures, List.map_cons,
            List.cons_append, List.getLastD_cons]
          rw [ih _ (List.cons_ne_nil _ _), List.getLastD_cons]
          rfl

/-- Claim C4: with `simulatePressure` on, the stored pressures are the
single left-to-right recurrence seeded at 0.5 described by the claim
(`specSimPressures`, written from the claim's words) applied to the
consecutive distances of the streamlined points; the final point's
pressure is left as streamlined. -/
theorem c4_simulated_pressure_pass (pts : List Point) (o : StrokeOptions)
    (hsim : o.simulatePressure = true) (hne : pts ≠ []) :
    (setupPoints pts o).map pressureOf
      = specSimPressures o.size 0.5 (segLengths (streamlinePoints pts o.streamline))
        ++ [pressureOf ((streamlinePoints pts o.streamline).getLastD (0, 0, 0))] := by
  unfold setupPoints
  rw [hsim]
  simp only [if_true]
  apply simulatePass_pressures
  cases pts with
  | nil => exact absurd rfl hne
  | cons p rest => simp [streamlinePoints]

/-- A closed instance of C4 on a concrete two-point input with the
default options. -/
theorem c4_simulated_pressure_pass_witness :
    (({} : StrokeOptions)).simulatePressure = true ∧
      ([((0 : ℝ), (0 : ℝ), (0.5 : ℝ)), ((6 : ℝ), (0 : ℝ), (0.5 : ℝ))] : List Point) ≠ [] ∧
      (setupPoints [((0 : ℝ), (0 : ℝ), (0.5 : ℝ)), ((6 : ℝ), (0 : ℝ), (0.5 : ℝ))] {}).map pressureOf
        = specSimPressures ({} : StrokeOptions).size 0.5
            (segLengths (streamlinePoints [((0 : ℝ), (0 : ℝ), (0.5 : ℝ)), ((6 : ℝ), (0 : ℝ), (0.5 : ℝ))] ({} : StrokeOptions).streamline))
          ++ [pressureOf ((streamlinePoints [((0 : ℝ), (0 : ℝ), (0.5 : ℝ)), ((6 : ℝ), (0 : ℝ), (0.5 : ℝ))] ({} : StrokeOptions).streamline).getLastD (0, 0, 0))] :=
  ⟨rfl, by simp,
    c4_simulated_pressure_pass _ {} rfl (by simp)⟩

/-! ### C7: spline index clamping -/

/-- Claim C7 says the four control-point indices are always clamped into
`[0, length - 1]` (non-looped).  They are not: at parameter `-1` with
two points, `p1 = min(trunc(-1) + 1, 1) = 0` and `p0 = p1 - 1 = -1`,
an out-of-bounds index. -/
theorem c7_counterexample :
    (splineIndices false 2 (-1)).1 = -1 ∧ ¬ (0 ≤ (splineIndices false 2 (-1)).1) := by
  have htr : jsTrunc (-1) = -1 := by
    unfold jsTrunc
    rw [if_neg (by norm_num)]
    rw [show ((-1 : ℝ)) = ((-1 : ℤ) : ℝ) by push_cast; ring, Int.ceil_intCast]
  constructor
  · simp only [splineIndices, htr]
    norm_num
  · simp only [splineIndices, htr]
    norm_num

/-- Claim C7 amended: for nonnegative parameters (the only ones the
program passes) and at least two control points, all four indices lie in
`[0, l - 1]`, in non-looped mode by clamping and in looped mode (with
the parameter below `l`) by wraparound. -/
theorem c7_spline_indices_amended (looped : Bool) (l : ℤ) (index : ℝ)
    (hl : 2 ≤ l) (h0 : 0 ≤ index) (hlt : looped = true → index < (l : ℝ)) :
    (0 ≤ (splineIndices looped l index).1 ∧ (splineIndices looped l index).1 ≤ l - 1) ∧
    (0 ≤ (splineIndices looped l index).2.1 ∧ (splineIndices looped l index).2.1 ≤ l - 1) ∧
    (0 ≤ (splineIndices looped l index).2.2.1 ∧ (splineIndices looped l index).2.2.1 ≤ l - 1) ∧
    (0 ≤ (splineIndices looped l index).2.2.2 ∧ (splineIndices looped l index).2.2.2 ≤ l - 1) := by
  have htr : jsTrunc index = ⌊index⌋ := if_pos h0
  have hd0 : (0 : ℤ) ≤ ⌊index⌋ := Int.floor_nonneg.mpr h0
  have htmod : ∀ a : ℤ, 0 ≤ a → 0 ≤ a.tmod l ∧ a.tmod l < l := by
    intro a ha
    rw [Int.tmod_eq_emod ha (by omega)]
    exact ⟨Int.emod_nonneg a (by omega), Int.emod_lt_of_pos a (by omega)⟩
  cases looped with
  | false =>
      simp only [splineIndices, htr, Bool.false_eq_true, if_false]
      simp only [min_def]
      split_ifs <;> omega
  | true =>
      have hdl : ⌊index⌋ < l := Int.floor_lt.mpr (by exact_mod_cast hlt rfl)
      simp only [splineIndices, htr, if_true]
      have h2 := htmod (⌊index⌋ + 1) (by omega)
      have h3 := htmod ((⌊index⌋ + 1).tmod l + 1) (by omega)
      split_ifs <;> omega

/-- A closed instance of the amended C7 at parameter 3/2 over three
points, non-looped. -/
theorem c7_spline_indices_amended_witness :
    (2 : ℤ) ≤ 3 ∧ (0 : ℝ) ≤ 3 / 2 ∧
      ((0 ≤ (splineIndices false 3 (3 / 2)).1 ∧ (splineIndices false 3 (3 / 2)).1 ≤ 3 - 1) ∧
       (0 ≤ (splineIndices false 3 (3 / 2)).2.1 ∧ (splineIndices false 3 (3 / 2)).2.1 ≤ 3 - 1) ∧
       (0 ≤ (splineIndices false 3 (3 / 2)).2.2.1 ∧ (splineIndices false 3 (3 / 2)).2.2.1 ≤ 3 - 1) ∧
       (0 ≤ (splineIndices false 3 (3 / 2)).2.2.2 ∧ (splineIndices false 3 (3 / 2)).2.2.2 ≤ 3 - 1)) :=
  ⟨by norm_num, by norm_num,
    c7_spline_indices_amended false 3 (3 / 2) (by norm_num) (by norm_num)
      (fun h => by simp at h)⟩

/-! ### Structural facts about the outline builder -/

lemma vdist_nonneg (a b : V2) : 0 ≤ vdist a b := Real.sqrt_nonneg _

lemma vrotAround_zero (a c : V2) : vrotAround a c 0 = a := by
  obtain ⟨a1, a2⟩ := a
  obtain ⟨c1, c2⟩ := c
  simp only [vrotAround, Real.sin_zero, Real.cos_zero, Prod.mk.injEq]
  constructor <;> ring

/-- Every build step only appends to the two side polylines. -/
lemma buildStep_append (o : StrokeOptions) (n : ℕ) (pg : V2) (c : Resample)
    (ng : V2) (i : ℕ) (s : BuildState) :
    ∃ dl dr, (buildStep o n pg c ng i s).left = s.left ++ dl ∧
      (buildStep o n pg c ng i s).right = s.right ++ dr := by
  unfold buildStep
  by_cases h : 0 < i ∧ vdpr c.gradient ng < 0
  · rw [if_pos h]
    exact ⟨_, _, rfl, rfl⟩
  · rw [if_neg h]
    exact ⟨_, _, rfl, rfl⟩

/-- The main loop only appends to the two side polylines. -/
lemma buildGo_append (o : StrokeOptions) (n : ℕ) :
    ∀ (l : List Resample) (i : ℕ) (pg : V2) (s : BuildState),
      ∃ dl dr, (buildGo o n i pg l s).left = s.left ++ dl ∧
        (buildGo o n i pg l s).right = s.right ++ dr := by
  intro l
  induction l with
  | nil => exact fun i pg s => ⟨[], [], by simp [buildGo], by simp [buildGo]⟩
  | cons c rest ih =>
      intro i pg s
      cases rest with
      | nil => exact ⟨[], [], by simp [buildGo], by simp [buildGo]⟩
      | cons nxt rest' =>
          obtain ⟨dl1, dr1, h1, h2⟩ :=
            buildStep_append o n pg c nxt.gradient i s
          obtain ⟨dl2, dr2, g1, g2⟩ :=
            ih (i + 1) c.gradient (buildStep o n pg c nxt.gradient i s)
          refine ⟨dl1 ++ dl2, dr1 ++ dr2, ?_, ?_⟩
          · rw [buildGo, g1, h1, List.append_assoc]
          · rw [buildGo, g2, h2, List.append_assoc]

/-- The first loop iteration (`i = 0`, no anchors yet) takes the regular
branch and commits exactly one vertex on each side. -/
lemma buildStep_first (o : StrokeOptions) (n : ℕ) (pg : V2) (c : Resample)
    (ng : V2) (s : BuildState) (hl : s.l0 = none) (hr : s.r0 = none) :
    ∃ a b, (buildStep o n pg c ng 0 s).left = s.left ++ [a] ∧
      (buildStep o n pg c ng 0 s).right = s.right ++ [b] := by
  refine ⟨vadd (xy c.point) (vmul (vper c.gradient) (getStrokeRadius o (pressureOf c.point))),
    vsub (xy c.point) (vmul (vper c.gradient) (getStrokeRadius o (pressureOf c.point))),
    ?_, ?_⟩ <;>
  · unfold buildStep
    rw [if_neg (by simp)]
    simp [sideDecision, hl, hr]

lemma streamlineAux_length (streamline : ℝ) (p0 : Point) (l : List Point) :
    (streamlineAux streamline p0 l).length = l.length := by
  induction l generalizing p0 with
  | nil => rfl
  | cons p rest ih => simp [streamlineAux, ih]

lemma streamlinePoints_length (pts : List Point) (streamline : ℝ) :
    (streamlinePoints pts streamline).length = pts.length := by
  cases pts with
  | nil => rfl
  | cons p rest => simp [streamlinePoints, streamlineAux_length]

lemma simulatePass_length (size : ℝ) (pp : ℝ) (l : List Point) :
    (simulatePass size pp l).length = l.length := by
  induction l generalizing pp with
  | nil => rfl
  | cons p rest ih =>
      cases rest with
      | nil => rfl
      | cons q rest' => simp [simulatePass, ih]

/-- The pressure pass rewrites only the pressure component of each
point. -/
lemma simulatePass_map_xy (size : ℝ) : ∀ (pp : ℝ) (l : List Point),
    (simulatePass size pp l).map xy = l.map xy := by
  intro pp l
  induction l generalizing pp with
  | nil => rfl
  | cons p rest ih =>
      cases rest with
      | nil => rfl
      | cons q rest' =>
          simp only [simulatePass, List.map_cons]
          rw [ih]
          simp [xy]

/-- The per-segment distances depend only on the x/y projections. -/
lemma segLengths_eq_of_map_xy : ∀ (l l' : List Point), l.map xy = l'.map xy →
    segLengths l = segLengths l' := by
  intro l
  induction l with
  | nil =>
      intro l' h
      rw [List.map_nil] at h
      rw [List.map_eq_nil.mp h.symm]
  | cons p rest ih =>
      intro l' h
      cases l' with
      | nil => simp at h
      | cons p' rest' =>
          simp only [List.map_cons, List.cons.injEq] at h
          obtain ⟨hp, hrest⟩ := h
          cases rest with
          | nil =>
              cases rest' with
              | nil => rfl
              | cons => simp at hrest
          | cons q rest2 =>
              cases rest' with
              | nil => simp at hrest
              | cons q' rest2' =>
                  have hq : xy q = xy q' := by
                    simp only [List.map_cons, List.cons.injEq] at hrest
                    exact hrest.1
                  show vdist (xy p) (xy q) :: segLengths (q :: rest2)
                      = vdist (xy p') (xy q') :: segLengths (q' :: rest2')
                  rw [hp, hq, ih (q' :: rest2') hrest]

/-- The pressure pass leaves the per-segment distances unchanged. -/
lemma segLengths_simulatePass (size pp : ℝ) (l : List Point) :
    segLengths (simulatePass size pp l) = segLengths l :=
  segLengths_eq_of_map_xy _ _ (simulatePass_map_xy size pp l)

lemma setupPoints_length (pts : List Point) (o : StrokeOptions) :
    (setupPoints pts o).length = pts.length := by
  unfold setupPoints
  split_ifs
  · rw [simulatePass_length, streamlinePoints_length]
  · rw [streamlinePoints_length]

lemma applyShort_length (size : ℝ) (l : List (Resample × ℝ)) :
    (applyShort size l).length = l.length := by
  unfold applyShort
  cases h : shortIdx size l with
  | none => simp
  | some j =>
      simp only [List.length_append, List.length_map, List.length_take,
        List.length_drop]
      omega

lemma append_single_two {α : Type} (l : List α) (x : α) (h : 0 < l.length) :
    ∃ c0 c1 rest, l ++ [x] = c0 :: c1 :: rest := by
  cases l with
  | nil => simp at h
  | cons a t =>
      cases t with
      | nil => exact ⟨a, x, [], rfl⟩
      | cons b t' => exact ⟨a, b, t' ++ [x], by simp⟩

lemma points_cons_cons (points : List Point) (h2 : 2 ≤ points.length) :
    ∃ p q rest0, points = p :: q :: rest0 := by
  cases points with
  | nil => simp at h2
  | cons p t =>
      cases t with
      | nil => simp at h2
      | cons q rest0 => exact ⟨p, q, rest0, rfl⟩

/-- After a segment is processed, the carried `error` is strictly
positive: either no sample was due (`error` exceeded the length) or the
loop exited with `trav` strictly past the length. -/
lemma err_next_pos (err len step : ℝ) (hstep : 0 < step) (hle : err ≤ len) :
    0 < err + ((sampleCount err len step : ℕ) : ℝ) * step - len := by
  unfold sampleCount
  rw [if_pos ⟨hle, hstep⟩]
  have h0 : (0 : ℤ) ≤ ⌊(len - err) / step⌋ :=
    Int.floor_nonneg.mpr (div_nonneg (by linarith) hstep.le)
  have hz : ((⌊(len - err) / step⌋.toNat : ℕ) : ℝ)
      = ((⌊(len - err) / step⌋ : ℤ) : ℝ) := by
    rw [← Int.cast_natCast, Int.toNat_of_nonneg h0]
  have hcast : (((⌊(len - err) / step⌋.toNat + 1 : ℕ)) : ℝ)
      = ((⌊(len - err) / step⌋ : ℤ) : ℝ) + 1 := by
    rw [Nat.cast_add, Nat.cast_one, hz]
  rw [hcast]
  have hlt : (len - err) / step < ⌊(len - err) / step⌋ + 1 := Int.lt_floor_add_one _
  have hmul := (div_lt_iff₀ hstep).mp hlt
  linarith

/-- With a strictly positive carried `error` (as after any processed
segment) the resampler never throws: a zero-length segment then gets no
sample at all. -/
lemma resampleGo_isSome (pts : List Point) (lo : Bool) (size : ℝ) (hs : 0 < size) :
    ∀ (ds : List ℝ) (i : ℕ) (err traveled : ℝ), 0 < err →
      (resampleGo pts lo size i err traveled ds).isSome = true := by
  intro ds
  induction ds with
  | nil => exact fun i err tr _ => rfl
  | cons len rest ih =>
      intro i err traveled herr
      have hstep : 0 < size / 4 := by linarith
      by_cases hlen : len = 0
      · have hcnt : sampleCount err len (size / 4) = 0 := by
          unfold sampleCount
          rw [if_neg]
          intro hc
          rw [hlen] at hc
          linarith [hc.1]
        simp only [resampleGo]
        rw [if_neg (by rw [hcnt]; exact fun hc => absurd hc.2 (by norm_num))]
        rw [Option.isSome_map']
        exact ih (i + 1) _ (traveled + len) (by rw [hcnt, hlen]; push_cast; linarith)
      · have herr' : 0 < err + ((sampleCount err len (size / 4) : ℕ) : ℝ) * (size / 4) - len := by
          by_cases hc : err ≤ len
          · exact err_next_pos err len (size / 4) hstep hc
          · have hcnt0 : sampleCount err len (size / 4) = 0 := by
              unfold sampleCount
              rw [if_neg (fun h => hc h.1)]
            rw [hcnt0]
            push_cast
            linarith [not_le.mp hc]
        simp only [resampleGo]
        rw [if_neg (fun hcond => hlen hcond.1)]
        rw [Option.isSome_map']
        exact ih (i + 1) _ (traveled + len) herr'

/-- Unfolding `resampleResults` on a successful resample. -/
lemma resampleResults_some_eq (o : StrokeOptions) (points : List Point)
    (raw : List (Resample × ℝ))
    (h : resampleGo points o.looped o.size 0 0 0 (segLengths points) = some raw) :
    resampleResults o points
      = some (applyShort o.size raw ++ [finalSample o points (applyShort o.size raw)]) := by
  simp only [resampleResults]
  rw [h]

/-- Unfolding `getOutlineShape` on a successful resample. -/
lemma getOutlineShape_some_eq (o : StrokeOptions) (points : List Point)
    (R : List Resample) (h : resampleResults o points = some R) :
    getOutlineShape o points = some (assembleOutline o R) := by
  simp only [getOutlineShape]
  rw [h]

/-- Unfolding `getOutlineShape` on a failed resample. -/
lemma getOutlineShape_none_eq (o : StrokeOptions) (points : List Point)
    (h : resampleResults o points = none) : getOutlineShape o points = none := by
  simp only [getOutlineShape]
  rw [h]

/-- Whenever the resampler succeeds on at least two points with a
positive size, the first segment contributed at least one sample (a
zero-length first segment would instead have thrown), so `results` has
at least two entries. -/
lemma resampleResults_cons (o : StrokeOptions) (points : List Point)
    (R : List Resample) (h2 : 2 ≤ points.length) (hs : 0 < o.size)
    (hR : resampleResults o points = some R) :
    ∃ c0 c1 rest, R = c0 :: c1 :: rest := by
  obtain ⟨p, q, rest0, hpts⟩ := points_cons_cons points h2
  cases hraw : resampleGo points o.looped o.size 0 0 0 (segLengths points) with
  | none =>
      have : resampleResults o points = none := by
        simp only [resampleResults]
        rw [hraw]
      rw [this] at hR
      exact absurd hR (by simp)
  | some raw =>
      have hRe := resampleResults_some_eq o points raw hraw
      rw [hRe] at hR
      have hReq : applyShort o.size raw ++ [finalSample o points (applyShort o.size raw)] = R :=
        Option.some.inj hR
      have hrawpos : 0 < raw.length := by
        rw [hpts, segLengths] at hraw
        simp only [resampleGo] at hraw
        by_cases hc : vdist (xy p) (xy q) = 0 ∧
            0 < sampleCount 0 (vdist (xy p) (xy q)) (o.size / 4)
        · rw [if_pos hc] at hraw
          exact absurd hraw (by simp)
        · rw [if_neg hc] at hraw
          obtain ⟨tail, htail, hblk⟩ := Option.map_eq_some'.mp hraw
          have hcnt : 1 ≤ sampleCount 0 (vdist (xy p) (xy q)) (o.size / 4) := by
            unfold sampleCount
            rw [if_pos ⟨vdist_nonneg _ _, by linarith⟩]
            omega
          rw [← hblk]
          simp only [List.length_append, List.length_map, List.length_range]
          omega
      rw [← hReq]
      exact append_single_two _ _ (by rw [applyShort_length]; exact hrawpos)

/-- When the first streamlined segment has nonzero length (and size is
positive), the resampler — and hence `resampleResults` — succeeds. -/
lemma resampleResults_isSome (o : StrokeOptions) (points : List Point)
    (h2 : 2 ≤ points.length) (hs : 0 < o.size)
    (hd : (segLengths points).headD 0 ≠ 0) :
    ∃ R, resampleResults o points = some R := by
  obtain ⟨p, q, rest0, hpts⟩ := points_cons_cons points h2
  have hstep : 0 < o.size / 4 := by linarith
  have hd' : vdist (xy p) (xy q) ≠ 0 := by
    rw [hpts, segLengths] at hd
    exact hd
  have hraw : (resampleGo points o.looped o.size 0 0 0 (segLengths points)).isSome
      = true := by
    rw [hpts, segLengths]
    simp only [resampleGo]
    rw [if_neg (fun hc => hd' hc.1)]
    rw [Option.isSome_map']
    exact resampleGo_isSome (p :: q :: rest0) o.looped o.size hs
      (segLengths (q :: rest0)) 1 _ (0 + vdist (xy p) (xy q))
      (err_next_pos 0 (vdist (xy p) (xy q)) (o.size / 4) hstep (vdist_nonneg _ _))
  obtain ⟨raw, hraw⟩ := Option.isSome_iff_exists.mp hraw
  exact ⟨_, resampleResults_some_eq o points raw hraw⟩

/-- The assembled outline on a results list of length ≥ 2 starts and
ends at the same vertex (the head of the right spline, which the
zero-angle start-cap rotation reproduces and the reversed right spline
ends at), and has at least the 5 start-cap vertices plus one committed
vertex per side. -/
lemma assembleOutline_props (o : StrokeOptions) (c0 c1 : Resample) (rest : List Resample) :
    (assembleOutline o (c0 :: c1 :: rest)).head?
        = (assembleOutline o (c0 :: c1 :: rest)).getLast? ∧
      7 ≤ (assembleOutline o (c0 :: c1 :: rest)).length := by
  obtain ⟨a, b, hfl, hfr⟩ := buildStep_first o (c0 :: c1 :: rest : List Resample).length
    (0, 0) c0 c1.gradient initState rfl rfl
  obtain ⟨dl, dr, hl, hr⟩ := buildGo_append o (c0 :: c1 :: rest : List Resample).length
    (c1 :: rest) 1 c0.gradient
    (buildStep o (c0 :: c1 :: rest : List Resample).length (0, 0) c0 c1.gradient 0 initState)
  have hleft : (buildGo o (c0 :: c1 :: rest : List Resample).length 0 (0, 0)
      (c0 :: c1 :: rest) initState).left = a :: dl := by
    rw [buildGo]
    simp only [Nat.zero_add]
    rw [hl, hfl]
    simp [initState]
  have hright : (buildGo o (c0 :: c1 :: rest : List Resample).length 0 (0, 0)
      (c0 :: c1 :: rest) initState).right = b :: dr := by
    rw [buildGo]
    simp only [Nat.zero_add]
    rw [hr, hfr]
    simp [initState]
  constructor
  · have hh : (assembleOutline o (c0 :: c1 :: rest)).head? = some b := by
      simp only [assembleOutline]
      rw [hleft, hright]
      simp [fanTs, vrotAround_zero]
    have hg : (assembleOutline o (c0 :: c1 :: rest)).getLast? = some b := by
      simp only [assembleOutline]
      rw [hleft, hright]
      rw [List.getLast?_append, List.reverse_cons, List.getLast?_append]
      rfl
    rw [hh, hg]
  · simp only [assembleOutline]
    rw [hleft, hright]
    simp [fanTs]
    omega

/-- For at least two input points the entry point takes the full builder
path. -/
lemma getStroke_builder (pts : List Point) (o : StrokeOptions)
    (h2 : 2 ≤ pts.length) :
    getStroke pts o
      = (getOutlineShape o (setupPoints pts o)).map fun out =>
          out.map fun v => some [v.1, v.2] := by
  cases pts with
  | nil => simp at h2
  | cons p rest =>
      have hlen : ¬ (setupPoints (p :: rest) o).length < 2 := by
        rw [setupPoints_length]
        exact Nat.not_lt.mpr h2
      simp only [getStroke]
      rw [if_neg hlen]

/-- When the first streamlined segment has nonzero length, `getStroke`
returns an outline of at least 7 vertices. -/
lemma getStroke_some7 (pts : List Point) (o : StrokeOptions)
    (h2 : 2 ≤ pts.length) (hs : 0 < o.size)
    (hd : (segLengths (setupPoints pts o)).headD 0 ≠ 0) :
    ∃ out, getStroke pts o = some out ∧ 7 ≤ out.length := by
  have h2' : 2 ≤ (setupPoints pts o).length := by
    rw [setupPoints_length]
    exact h2
  obtain ⟨R, hR⟩ := resampleResults_isSome o (setupPoints pts o) h2' hs hd
  obtain ⟨c0, c1, rest, hRc⟩ := resampleResults_cons o (setupPoints pts o) R h2' hs hR
  subst hRc
  refine ⟨(assembleOutline o (c0 :: c1 :: rest)).map fun v => some [v.1, v.2], ?_, ?_⟩
  · rw [getStroke_builder pts o h2, getOutlineShape_some_eq o _ _ hR]
    rfl
  · rw [List.length_map]
    exact (assembleOutline_props o c0 c1 rest).2

/-! ### C1: the outline ring is closed -/

/-- The model does not collapse the source's crash path: on two
coincident input points the first streamlined segment has length 0, the
resampler divides `0 / 0` and the source throws; `getStroke` is
`none`. -/
lemma getStroke_crash_example :
    getStroke [((0 : ℝ), (0 : ℝ), (0.5 : ℝ)), ((0 : ℝ), (0 : ℝ), (0.5 : ℝ))] {} = none := by
  have hstream : streamlinePoints
      [((0 : ℝ), (0 : ℝ), (0.5 : ℝ)), ((0 : ℝ), (0 : ℝ), (0.5 : ℝ))]
      ({} : StrokeOptions).streamline
      = [((0 : ℝ), (0 : ℝ), (0.5 : ℝ)), ((0 : ℝ), (0 : ℝ), (0.5 : ℝ))] := by
    norm_num [streamlinePoints, streamlineAux, vlrp, vadd, vmul, vvec, xy, Prod.mk.injEq]
  have hseg : segLengths (setupPoints
      [((0 : ℝ), (0 : ℝ), (0.5 : ℝ)), ((0 : ℝ), (0 : ℝ), (0.5 : ℝ))] {}) = [(0 : ℝ)] := by
    unfold setupPoints
    rw [if_pos rfl, segLengths_simulatePass, hstream]
    show [vdist (xy ((0 : ℝ), (0 : ℝ), (0.5 : ℝ))) (xy ((0 : ℝ), (0 : ℝ), (0.5 : ℝ)))] = [(0 : ℝ)]
    norm_num [vdist, vlen, vsub, xy, Real.sqrt_zero]
  have hcnt : sampleCount 0 0 ((8 : ℝ) / 4) = 1 := by
    unfold sampleCount
    rw [if_pos ⟨le_refl 0, by norm_num⟩]
    norm_num
  have hraw : resampleGo (setupPoints
      [((0 : ℝ), (0 : ℝ), (0.5 : ℝ)), ((0 : ℝ), (0 : ℝ), (0.5 : ℝ))] {})
      ({} : StrokeOptions).looped ({} : StrokeOptions).size 0 0 0
      (segLengths (setupPoints
        [((0 : ℝ), (0 : ℝ), (0.5 : ℝ)), ((0 : ℝ), (0 : ℝ), (0.5 : ℝ))] {})) = none := by
    rw [hseg, show ({} : StrokeOptions).size = (8 : ℝ) from rfl]
    simp only [resampleGo]
    rw [if_pos (by rw [hcnt]; norm_num)]
  have hres : resampleResults {} (setupPoints
      [((0 : ℝ), (0 : ℝ), (0.5 : ℝ)), ((0 : ℝ), (0 : ℝ), (0.5 : ℝ))] {}) = none := by
    simp only [resampleResults]
    rw [hraw]
  rw [getStroke_builder _ {} (by norm_num), getOutlineShape_none_eq _ _ hres]
  rfl

/-- Claim C1: whenever `getStroke` returns an outline (with a positive
stroke size; for `size ≤ 0` the resampling `while` loop of the source
does not terminate, and on a zero-length first streamlined segment the
source throws a TypeError — modelled as the `none` result, see
`getStroke_crash_example`), that outline is empty or its first and last
vertices coincide: the first emitted vertex is the zero-angle start-cap
rotation of `rightSpline[0]` and the last is `rightSpline[0]` itself
after the right side is reversed — exactly equal, which subsumes the
claim's floating tolerance. -/
theorem c1_outline_closed (pts : List Point) (o : StrokeOptions)
    (out : List (Option (List ℝ))) (hs : 0 < o.size)
    (hret : getStroke pts o = some out) :
    out.head? = out.getLast? := by
  by_cases h2 : 2 ≤ pts.length
  · rw [getStroke_builder pts o h2] at hret
    obtain ⟨inner, hinner, hout⟩ := Option.map_eq_some'.mp hret
    cases hres : resampleResults o (setupPoints pts o) with
    | none =>
        rw [getOutlineShape_none_eq o _ hres] at hinner
        exact absurd hinner (by simp)
    | some R =>
        obtain ⟨c0, c1, rest, hRc⟩ := resampleResults_cons o (setupPoints pts o) R
          (by rw [setupPoints_length]; exact h2) hs hres
        subst hRc
        rw [getOutlineShape_some_eq o _ _ hres] at hinner
        have hin : inner = assembleOutline o (c0 :: c1 :: rest) :=
          (Option.some.inj hinner).symm
        subst hin
        rw [← hout, List.head?_map, List.getLast?_map,
          (assembleOutline_props o c0 c1 rest).1]
  · cases pts with
    | nil =>
        have : out = [none] := Option.some.inj hret.symm
        rw [this]
        rfl
    | cons p rest =>
        cases rest with
        | nil =>
            have h1 : (setupPoints [p] o).length = 1 := by
              rw [setupPoints_length]
              rfl
            obtain ⟨q, hq⟩ := List.length_eq_one.mp h1
            simp only [getStroke] at hret
            rw [hq] at hret
            rw [if_pos (by norm_num)] at hret
            have := Option.some.inj hret
            rw [← this]
            rfl
        | cons q rest' =>
            refine absurd ?_ h2
            rw [List.length_cons, List.length_cons]
            omega

/-- A closed instance of C1 on the empty input with the default
options. -/
theorem c1_outline_closed_witness :
    (0 : ℝ) < ({} : StrokeOptions).size ∧ getStroke [] {} = some [none] ∧
      ([none] : List (Option (List ℝ))).head? = ([none] : List (Option (List ℝ))).getLast? :=
  ⟨by norm_num, rfl, c1_outline_closed [] {} [none] (by norm_num) rfl⟩

/-! ### C8: there is no short-stroke branch -/

/-- The two-point input 15 units apart from the claim. -/
def pts15 : List Point := [((0 : ℝ), (0 : ℝ), (0.5 : ℝ)), ((15 : ℝ), (0 : ℝ), (0.5 : ℝ))]

/-- The streamlined points of the 15-apart input under the default
options (streamline 0.5). -/
lemma pts15_stream : streamlinePoints pts15 ({} : StrokeOptions).streamline
    = [((0 : ℝ), (0 : ℝ), (0.5 : ℝ)), ((15 / 2 : ℝ), (0 : ℝ), (0.5 : ℝ))] := by
  norm_num [streamlinePoints, streamlineAux, vlrp, vadd, vmul, vvec, xy, pts15, Prod.mk.injEq]

/-- The first (and only) streamlined segment of the 15-apart input has
length 15/2 ≠ 0, so `getStroke` returns there. -/
lemma pts15_seg : segLengths (setupPoints pts15 {}) = [(15 / 2 : ℝ)] := by
  unfold setupPoints
  rw [if_pos rfl, segLengths_simulatePass, pts15_stream]
  have hsq : Real.sqrt ((225 : ℝ) / 4) = 15 / 2 := by
    rw [show (225 / 4 : ℝ) = (15 / 2) ^ 2 by norm_num, Real.sqrt_sq (by norm_num)]
  show [vdist (xy ((0 : ℝ), (0 : ℝ), (0.5 : ℝ))) (xy ((15 / 2 : ℝ), (0 : ℝ), (0.5 : ℝ)))]
    = [(15 / 2 : ℝ)]
  norm_num [vdist, vlen, vsub, xy, hsq]

/-- Claim C8 says the outline of two points at distance `d` is the
short-stroke lens shape iff `d < 2 · maxSize`, and in particular that
two points 15 apart with size 8 take the short-stroke path.  The source
has no short-stroke branch at all: at that very input `getStroke`
returns the full builder outline with at least 7 vertices, never the
5-vertex lens, so the claimed equivalence fails (its right side holds,
its left side does not). -/
theorem c8_counterexample :
    ¬ ((getStroke pts15 {}
          = some ((shortStrokeLens ((0 : ℝ), (0 : ℝ), (0.5 : ℝ)) ((15 : ℝ), (0 : ℝ), (0.5 : ℝ)) 8 8).map
              (fun v => some [v.1, v.2])))
        ↔ vdist (xy ((0 : ℝ), (0 : ℝ), (0.5 : ℝ))) (xy ((15 : ℝ), (0 : ℝ), (0.5 : ℝ))) < 2 * 8) := by
  intro hiff
  have hd : vdist (xy ((0 : ℝ), (0 : ℝ), (0.5 : ℝ))) (xy ((15 : ℝ), (0 : ℝ), (0.5 : ℝ))) < 2 * 8 := by
    unfold vdist vlen vsub xy
    rw [show ((0 : ℝ) - 15) ^ 2 + ((0 : ℝ) - 0) ^ 2 = 15 ^ 2 by norm_num,
      Real.sqrt_sq (by norm_num)]
    norm_num
  have heq := hiff.mpr hd
  obtain ⟨out, hsome, h7⟩ := getStroke_some7 pts15 {} (by simp [pts15]) (by norm_num)
    (by rw [pts15_seg]; norm_num)
  rw [hsome] at heq
  rw [Option.some.inj heq] at h7
  simp [shortStrokeLens] at h7

/-- Claim C8 amended: the code contains no short-stroke branch; every
input of at least two points on which `getStroke` returns at all —
its first streamlined segment has nonzero length, otherwise the source
throws a TypeError — takes the full spline-builder path (in particular
both the 15- and 17-apart two-point inputs with size 8 do), whose
outline has at least 7 vertices and is therefore never the 5-vertex
lens shape of the spec. -/
theorem c8_no_short_stroke_amended (pts : List Point) (o : StrokeOptions)
    (h2 : 2 ≤ pts.length) (hs : 0 < o.size)
    (hd : (segLengths (setupPoints pts o)).headD 0 ≠ 0) :
    getStroke pts o
        = ((getOutlineShape o (setupPoints pts o)).map fun out =>
            out.map fun v => some [v.1, v.2]) ∧
      ∃ out, getStroke pts o = some out ∧ 7 ≤ out.length ∧
        ∀ p q mn mx : _, out
          ≠ (shortStrokeLens p q mn mx).map fun v => some [v.1, v.2] := by
  refine ⟨getStroke_builder pts o h2, ?_⟩
  obtain ⟨out, hsome, h7⟩ := getStroke_some7 pts o h2 hs hd
  refine ⟨out, hsome, h7, ?_⟩
  intro p q mn mx heq
  rw [heq] at h7
  simp [shortStrokeLens] at h7

/-- A closed instance of the amended C8 at the claim's 15-apart input
with the default size 8. -/
theorem c8_no_short_stroke_amended_witness :
    2 ≤ pts15.length ∧ (0 : ℝ) < ({} : StrokeOptions).size ∧
      (segLengths (setupPoints pts15 {})).headD 0 ≠ 0 ∧
      (getStroke pts15 {}
          = ((getOutlineShape {} (setupPoints pts15 {})).map fun out =>
              out.map fun v => some [v.1, v.2]) ∧
        ∃ out, getStroke pts15 {} = some out ∧ 7 ≤ out.length ∧
          ∀ p q mn mx : _, out
            ≠ (shortStrokeLens p q mn mx).map fun v => some [v.1, v.2]) :=
  ⟨by simp [pts15], by norm_num, by rw [pts15_seg]; norm_num,
    c8_no_short_stroke_amended pts15 {} (by simp [pts15]) (by norm_num)
      (by rw [pts15_seg]; norm_num)⟩

/-! ### C5: the non-corner commit gate -/

/-- In the regular branch the left spline receives exactly the committed
vertex `tl` (or nothing). -/
lemma buildStep_left_regular (o : StrokeOptions) (n : ℕ) (prevG : V2)
    (cur : Resample) (nextG : V2) (i : ℕ) (s : BuildState)
    (hcorner : ¬ (0 < i ∧ vdpr cur.gradient nextG < 0)) :
    (buildStep o n prevG cur nextG i s).left
      = s.left ++
        (if (sideDecision o n i cur.gradient s.l0 s.tlu s.plu
              (vadd (xy cur.point)
                (vmul (vper cur.gradient) (getStrokeRadius o (pressureOf cur.point))))).1
         then [vadd (xy cur.point)
                (vmul (vper cur.gradient) (getStrokeRadius o (pressureOf cur.point)))]
         else []) := by
  unfold buildStep
  rw [if_neg hcorner]

/-- In the regular branch the right spline receives exactly the
committed vertex `tr` (or nothing). -/
lemma buildStep_right_regular (o : StrokeOptions) (n : ℕ) (prevG : V2)
    (cur : Resample) (nextG : V2) (i : ℕ) (s : BuildState)
    (hcorner : ¬ (0 < i ∧ vdpr cur.gradient nextG < 0)) :
    (buildStep o n prevG cur nextG i s).right
      = s.right ++
        (if (sideDecision o n i cur.gradient s.r0 s.tru s.pru
              (vsub (xy cur.point)
                (vmul (vper cur.gradient) (getStrokeRadius o (pressureOf cur.point))))).1
         then [vsub (xy cur.point)
                (vmul (vper cur.gradient) (getStrokeRadius o (pressureOf cur.point)))]
         else []) := by
  unfold buildStep
  rw [if_neg hcorner]

/-- Once an anchor and a previous direction are recorded (and the
iteration is not the loop-unreachable `i = n - 1` case), the side
commits exactly when the new offset direction dots positively with the
current unit gradient and the anchor distance exceeds
`size * smoothing`. -/
lemma sideDecision_gate (o : StrokeOptions) (n i : ℕ) (gradient : V2)
    (a pu : V2) (tuOld : Option V2) (tNew : V2) (hlast : i ≠ n - 1) :
    (sideDecision o n i gradient (some a) tuOld (some pu) tNew).1 = true
      ↔ (0 < vdpr (vuni (vvec a tNew)) gradient ∧
          o.size * o.smoothing < vdist a tNew) := by
  rw [show sideDecision o n i gradient (some a) tuOld (some pu) tNew
        = if i = n - 1 then (true, tuOld, some pu)
          else if 0 < vdpr (vuni (vvec a tNew)) gradient ∧
              o.size * o.smoothing < vdist a tNew
          then (true, some (vuni (vvec a tNew)), some pu)
          else (false, some (vuni (vvec a tNew)), some pu) from rfl]
  rw [if_neg hlast]
  by_cases hc : 0 < vdpr (vuni (vvec a tNew)) gradient ∧
      o.size * o.smoothing < vdist a tNew
  · rw [if_pos hc]
    simpa using hc
  · rw [if_neg hc]
    simpa using hc

/-- Options for the C5 counterexample: size 4 (so `minDist = 2`) and
thinning 0 (constant radius 2). -/
def c5Opts : StrokeOptions := { size := 4, thinning := 0 }

/-- Builder state for the C5 counterexample: left anchor at the origin
with previous left direction `(1, 0)`. -/
def c5State : BuildState :=
  ⟨[], [], some ((0 : ℝ), (0 : ℝ)), none, none, none, some ((1 : ℝ), (0 : ℝ)), none⟩

/-- Current resample for the C5 counterexample: point `(-5, 4)` with
unit gradient `(0, 1)`. -/
def c5Cur : Resample := ⟨((-5 : ℝ), (4 : ℝ), (0.5 : ℝ)), ((0 : ℝ), (1 : ℝ))⟩

/-- Claim C5 says a vertex is committed only when the distance gate
passes *and* the new offset direction dots positively with the previous
tracking direction on that side.  The code instead dots with the current
unit gradient: here the left side commits the vertex `(-3, 4)` (the new
offset direction `(-3/5, 4/5)` dots positively with the gradient
`(0, 1)` and the distance 5 exceeds `minDist = 2`), yet its dot product
with the previous tracking direction `(1, 0)` is `-3/5 < 0`, so the
claim's stated gate is violated. -/
theorem c5_counterexample :
    (buildStep c5Opts 10 (0, 0) c5Cur ((0 : ℝ), (1 : ℝ)) 1 c5State).left
        = [((-3 : ℝ), (4 : ℝ))] ∧
      ¬ (0 < vdpr (vuni (vvec ((0 : ℝ), (0 : ℝ)) ((-3 : ℝ), (4 : ℝ)))) ((1 : ℝ), (0 : ℝ)) ∧
          c5Opts.size * c5Opts.smoothing < vdist ((0 : ℝ), (0 : ℝ)) ((-3 : ℝ), (4 : ℝ))) := by
  have h25 : Real.sqrt 25 = 5 := by
    rw [show (25 : ℝ) = 5 ^ 2 by norm_num, Real.sqrt_sq (by norm_num)]
  have hcorner : ¬ ((0 : ℕ) < 1 ∧ vdpr c5Cur.gradient ((0 : ℝ), (1 : ℝ)) < 0) := by
    norm_num [vdpr, c5Cur]
  have hrad : getStrokeRadius c5Opts 0.5 = 2 := by
    norm_num [getStrokeRadius, c5Opts]
  have htl : vadd (xy c5Cur.point)
      (vmul (vper c5Cur.gradient) (getStrokeRadius c5Opts (pressureOf c5Cur.point)))
      = ((-3 : ℝ), (4 : ℝ)) := by
    rw [show pressureOf c5Cur.point = 0.5 from rfl, hrad]
    norm_num [c5Cur, vadd, vmul, vper, xy, Prod.mk.injEq]
  have htu : vuni (vvec ((0 : ℝ), (0 : ℝ)) ((-3 : ℝ), (4 : ℝ)))
      = (-(3 / 5 : ℝ), (4 / 5 : ℝ)) := by
    norm_num [vvec, vuni, vlen, h25, Prod.mk.injEq]
  have hdist : vdist ((0 : ℝ), (0 : ℝ)) ((-3 : ℝ), (4 : ℝ)) = 5 := by
    norm_num [vdist, vlen, vsub, h25]
  constructor
  · rw [buildStep_left_regular c5Opts 10 (0, 0) c5Cur ((0 : ℝ), (1 : ℝ)) 1 c5State hcorner]
    rw [htl]
    rw [show c5State.l0 = some ((0 : ℝ), (0 : ℝ)) from rfl,
      show c5State.tlu = none from rfl,
      show c5State.plu = some ((1 : ℝ), (0 : ℝ)) from rfl,
      show c5State.left = ([] : List V2) from rfl]
    have hcommit : (sideDecision c5Opts 10 1 c5Cur.gradient (some ((0 : ℝ), (0 : ℝ)))
        none (some ((1 : ℝ), (0 : ℝ))) ((-3 : ℝ), (4 : ℝ))).1 = true := by
      rw [sideDecision_gate c5Opts 10 1 c5Cur.gradient ((0 : ℝ), (0 : ℝ)) ((1 : ℝ), (0 : ℝ))
        none ((-3 : ℝ), (4 : ℝ)) (by norm_num)]
      constructor
      · rw [htu]
        norm_num [vdpr, c5Cur]
      · rw [hdist]
        norm_num [c5Opts]
    rw [hcommit]
    simp
  · intro hcl
    rw [htu] at hcl
    norm_num [vdpr] at hcl

/-- Claim C5 amended: in the regular (non-corner) branch, once a side
has a recorded anchor and previous offset direction, a vertex is
committed to that side iff its distance from the anchor exceeds
`minDist = size * smoothing` and the dot product of the new offset
direction with the *current resample's unit gradient* (not the previous
tracking direction, which only gates the initial seeding) is
positive. -/
theorem c5_commit_gate_amended (o : StrokeOptions) (n : ℕ) (prevG : V2)
    (cur : Resample) (nextG : V2) (i : ℕ) (s : BuildState) (l0v pluv r0v pruv : V2)
    (hcorner : ¬ (0 < i ∧ vdpr cur.gradient nextG < 0)) (hlast : i ≠ n - 1)
    (hl0 : s.l0 = some l0v) (hplu : s.plu = some pluv)
    (hr0 : s.r0 = some r0v) (hpru : s.pru = some pruv) :
    ((buildStep o n prevG cur nextG i s).left ≠ s.left
      ↔ (0 < vdpr (vuni (vvec l0v (vadd (xy cur.point)
            (vmul (vper cur.gradient) (getStrokeRadius o (pressureOf cur.point))))))
            cur.gradient ∧
          o.size * o.smoothing < vdist l0v (vadd (xy cur.point)
            (vmul (vper cur.gradient) (getStrokeRadius o (pressureOf cur.point)))))) ∧
    ((buildStep o n prevG cur nextG i s).right ≠ s.right
      ↔ (0 < vdpr (vuni (vvec r0v (vsub (xy cur.point)
            (vmul (vper cur.gradient) (getStrokeRadius o (pressureOf cur.point))))))
            cur.gradient ∧
          o.size * o.smoothing < vdist r0v (vsub (xy cur.point)
            (vmul (vper cur.gradient) (getStrokeRadius o (pressureOf cur.point)))))) := by
  constructor
  · rw [buildStep_left_regular o n prevG cur nextG i s hcorner, hl0, hplu]
    rw [← sideDecision_gate o n i cur.gradient l0v pluv s.tlu
      (vadd (xy cur.point) (vmul (vper cur.gradient) (getStrokeRadius o (pressureOf cur.point))))
      hlast]
    by_cases hb : (sideDecision o n i cur.gradient (some l0v) s.tlu (some pluv)
        (vadd (xy cur.point) (vmul (vper cur.gradient) (getStrokeRadius o (pressureOf cur.point))))).1 = true
    · rw [hb]
      simp
    · rw [Bool.not_eq_true] at hb
      rw [hb]
      simp
  · rw [buildStep_right_regular o n prevG cur nextG i s hcorner, hr0, hpru]
    rw [← sideDecision_gate o n i cur.gradient r0v pruv s.tru
      (vsub (xy cur.point) (vmul (vper cur.gradient) (getStrokeRadius o (pressureOf cur.point))))
      hlast]
    by_cases hb : (sideDecision o n i cur.gradient (some r0v) s.tru (some pruv)
        (vsub (xy cur.point) (vmul (vper cur.gradient) (getStrokeRadius o (pressureOf cur.point))))).1 = true
    · rw [hb]
      simp
    · rw [Bool.not_eq_true] at hb
      rw [hb]
      simp

/-- A closed instance of the amended C5: a state with both anchors
recorded, left at (0, 0) and right at (-4, 0), both previous directions
(1, 0), at a non-corner step. -/
theorem c5_commit_gate_amended_witness :
    (¬ ((0 : ℕ) < 1 ∧ vdpr ((0 : ℝ), (1 : ℝ)) ((0 : ℝ), (1 : ℝ)) < 0)) ∧
      ((1 : ℕ) ≠ 10 - 1) ∧
      (((buildStep { size := 4, thinning := 0 } 10 (0, 0)
            ⟨((-5 : ℝ), (4 : ℝ), (0.5 : ℝ)), ((0 : ℝ), (1 : ℝ))⟩ ((0 : ℝ), (1 : ℝ)) 1
            ⟨[], [], some ((0 : ℝ), (0 : ℝ)), some ((-4 : ℝ), (0 : ℝ)), none, none,
              some ((1 : ℝ), (0 : ℝ)), some ((1 : ℝ), (0 : ℝ))⟩).left
          ≠ (⟨[], [], some ((0 : ℝ), (0 : ℝ)), some ((-4 : ℝ), (0 : ℝ)), none, none,
              some ((1 : ℝ), (0 : ℝ)), some ((1 : ℝ), (0 : ℝ))⟩ : BuildState).left
        ↔ (0 < vdpr (vuni (vvec ((0 : ℝ), (0 : ℝ)) (vadd (xy ((-5 : ℝ), (4 : ℝ), (0.5 : ℝ)))
              (vmul (vper ((0 : ℝ), (1 : ℝ)))
                (getStrokeRadius { size := 4, thinning := 0 } (pressureOf ((-5 : ℝ), (4 : ℝ), (0.5 : ℝ))))))))
              ((0 : ℝ), (1 : ℝ)) ∧
            ({ size := 4, thinning := 0 } : StrokeOptions).size * ({ size := 4, thinning := 0 } : StrokeOptions).smoothing
              < vdist ((0 : ℝ), (0 : ℝ)) (vadd (xy ((-5 : ℝ), (4 : ℝ), (0.5 : ℝ)))
                  (vmul (vper ((0 : ℝ), (1 : ℝ)))
                    (getStrokeRadius { size := 4, thinning := 0 } (pressureOf ((-5 : ℝ), (4 : ℝ), (0.5 : ℝ)))))))) ∧
      ((buildStep { size := 4, thinning := 0 } 10 (0, 0)
            ⟨((-5 : ℝ), (4 : ℝ), (0.5 : ℝ)), ((0 : ℝ), (1 : ℝ))⟩ ((0 : ℝ), (1 : ℝ)) 1
            ⟨[], [], some ((0 : ℝ), (0 : ℝ)), some ((-4 : ℝ), (0 : ℝ)), none, none,
              some ((1 : ℝ), (0 : ℝ)), some ((1 : ℝ), (0 : ℝ))⟩).right
          ≠ (⟨[], [], some ((0 : ℝ), (0 : ℝ)), some ((-4 : ℝ), (0 : ℝ)), none, none,
              some ((1 : ℝ), (0 : ℝ)), some ((1 : ℝ), (0 : ℝ))⟩ : BuildState).right
        ↔ (0 < vdpr (vuni (vvec ((-4 : ℝ), (0 : ℝ)) (vsub (xy ((-5 : ℝ), (4 : ℝ), (0.5 : ℝ)))
              (vmul (vper ((0 : ℝ), (1 : ℝ)))
                (getStrokeRadius { size := 4, thinning := 0 } (pressureOf ((-5 : ℝ), (4 : ℝ), (0.5 : ℝ))))))))
              ((0 : ℝ), (1 : ℝ)) ∧
            ({ size := 4, thinning := 0 } : StrokeOptions).size * ({ size := 4, thinning := 0 } : StrokeOptions).smoothing
              < vdist ((-4 : ℝ), (0 : ℝ)) (vsub (xy ((-5 : ℝ), (4 : ℝ), (0.5 : ℝ)))
                  (vmul (vper ((0 : ℝ), (1 : ℝ)))
                    (getStrokeRadius { size := 4, thinning := 0 } (pressureOf ((-5 : ℝ), (4 : ℝ), (0.5 : ℝ))))))))) :=
  ⟨by norm_num [vdpr], by norm_num,
    c5_commit_gate_amended { size := 4, thinning := 0 } 10 (0, 0)
      ⟨((-5 : ℝ), (4 : ℝ), (0.5 : ℝ)), ((0 : ℝ), (1 : ℝ))⟩ ((0 : ℝ), (1 : ℝ)) 1
      ⟨[], [], some ((0 : ℝ), (0 : ℝ)), some ((-4 : ℝ), (0 : ℝ)), none, none,
        some ((1 : ℝ), (0 : ℝ)), some ((1 : ℝ), (0 : ℝ))⟩
      ((0 : ℝ), (0 : ℝ)) ((1 : ℝ), (0 : ℝ)) ((-4 : ℝ), (0 : ℝ)) ((1 : ℝ), (0 : ℝ))
      (by norm_num [vdpr]) (by norm_num) rfl rfl rfl rfl⟩

/-! ### C6: the corner fan -/

/-- Claim C6 amended: at iterations `i > 0` (the source additionally
requires `i > 0`, which the claim omits), a negative dot product between
the consecutive unit gradients makes the step append to each side the
five-point radial fan rotating the offset point around the centreline
point by `π·t`, `t ∈ {0, 0.25, 0.5, 0.75, 1}` (negated angles on the
right). -/
theorem c6_corner_fan_amended (o : StrokeOptions) (n : ℕ) (prevG : V2)
    (cur : Resample) (nextG : V2) (i : ℕ) (s : BuildState)
    (hi : 0 < i) (hdpr : vdpr cur.gradient nextG < 0) :
    fanTs = [0, 0.25, 0.5, 0.75, 1] ∧
    (buildStep o n prevG cur nextG i s).left
      = s.left ++ fanTs.map (fun t => vrotAround
          (vadd (xy cur.point) (vmul (vper prevG) (getStrokeRadius o (pressureOf cur.point))))
          (xy cur.point) (Real.pi * t)) ∧
    (buildStep o n prevG cur nextG i s).right
      = s.right ++ fanTs.map (fun t => vrotAround
          (vsub (xy cur.point) (vmul (vper prevG) (getStrokeRadius o (pressureOf cur.point))))
          (xy cur.point) (-(Real.pi * t))) := by
  refine ⟨rfl, ?_, ?_⟩ <;>
  · unfold buildStep
    rw [if_pos ⟨hi, hdpr⟩]

/-- A closed instance of the amended C6 at `i = 1` with reversing unit
gradients. -/
theorem c6_corner_fan_amended_witness :
    (0 : ℕ) < 1 ∧ vdpr ((1 : ℝ), (0 : ℝ)) ((-1 : ℝ), (0 : ℝ)) < 0 ∧
      (fanTs = [0, 0.25, 0.5, 0.75, 1] ∧
       (buildStep {} 3 (0, 0) ⟨((0 : ℝ), (0 : ℝ), (0.5 : ℝ)), ((1 : ℝ), (0 : ℝ))⟩
            ((-1 : ℝ), (0 : ℝ)) 1 initState).left
         = initState.left ++ fanTs.map (fun t => vrotAround
             (vadd (xy ((0 : ℝ), (0 : ℝ), (0.5 : ℝ)))
               (vmul (vper ((0 : ℝ), (0 : ℝ))) (getStrokeRadius {} (pressureOf ((0 : ℝ), (0 : ℝ), (0.5 : ℝ))))))
             (xy ((0 : ℝ), (0 : ℝ), (0.5 : ℝ))) (Real.pi * t)) ∧
       (buildStep {} 3 (0, 0) ⟨((0 : ℝ), (0 : ℝ), (0.5 : ℝ)), ((1 : ℝ), (0 : ℝ))⟩
            ((-1 : ℝ), (0 : ℝ)) 1 initState).right
         = initState.right ++ fanTs.map (fun t => vrotAround
             (vsub (xy ((0 : ℝ), (0 : ℝ), (0.5 : ℝ)))
               (vmul (vper ((0 : ℝ), (0 : ℝ))) (getStrokeRadius {} (pressureOf ((0 : ℝ), (0 : ℝ), (0.5 : ℝ))))))
             (xy ((0 : ℝ), (0 : ℝ), (0.5 : ℝ))) (-(Real.pi * t)))) :=
  ⟨by norm_num, by norm_num [vdpr],
    c6_corner_fan_amended {} 3 (0, 0) ⟨((0 : ℝ), (0 : ℝ), (0.5 : ℝ)), ((1 : ℝ), (0 : ℝ))⟩
      ((-1 : ℝ), (0 : ℝ)) 1 initState (by norm_num) (by norm_num [vdpr])⟩

/-- Unit normalisation of a positive x-axis vector. -/
lemma vuni_pos_x (a : ℝ) (ha : 0 < a) : vuni (a, 0) = (1, 0) := by
  show (a / Real.sqrt (a ^ 2 + 0 ^ 2), (0 : ℝ) / Real.sqrt (a ^ 2 + 0 ^ 2)) = (1, 0)
  rw [show a ^ 2 + (0 : ℝ) ^ 2 = a ^ 2 by ring, Real.sqrt_sq ha.le]
  rw [div_self (ne_of_gt ha)]
  norm_num

/-- Unit normalisation of a negative x-axis vector. -/
lemma vuni_neg_x (a : ℝ) (ha : a < 0) : vuni (a, 0) = (-1, 0) := by
  show (a / Real.sqrt (a ^ 2 + 0 ^ 2), (0 : ℝ) / Real.sqrt (a ^ 2 + 0 ^ 2)) = (-1, 0)
  rw [show a ^ 2 + (0 : ℝ) ^ 2 = (-a) ^ 2 by ring, Real.sqrt_sq (by linarith)]
  rw [div_neg, div_self (ne_of_lt ha), zero_div]

/-- Options for the C6 counterexample: raw input (no streamline, no
pressure simulation), default size 8. -/
def c6Opts : StrokeOptions := { streamline := 0, simulatePressure := false }

/-- Input for the C6 counterexample: two points three units apart, so
the resampler (step `size/4 = 2`) emits exactly two samples, whose unit
gradients reverse because the two-point Catmull-Rom segment doubles
back. -/
def c6Pts : List Point := [((0 : ℝ), (0 : ℝ), (0.5 : ℝ)), ((3 : ℝ), (0 : ℝ), (0.5 : ℝ))]

lemma c6_setup : setupPoints c6Pts c6Opts = c6Pts := by
  unfold setupPoints
  rw [if_neg (by simp [c6Opts])]
  rw [show c6Opts.streamline = 0 from rfl]
  exact streamlinePoints_zero c6Pts

lemma c6_jt0 : jsTrunc 0 = 0 := by
  unfold jsTrunc
  rw [if_pos le_rfl]
  exact Int.floor_zero

lemma c6_jt23 : jsTrunc ((2 : ℝ) / 3) = 0 := by
  unfold jsTrunc
  rw [if_pos (by norm_num)]
  norm_num

lemma c6_si0 : splineIndices false ((c6Pts.length : ℕ) : ℤ) 0 = (0, 1, 1, 1) := by
  unfold splineIndices
  rw [c6_jt0]
  decide

lemma c6_si23 : splineIndices false ((c6Pts.length : ℕ) : ℤ) ((2 : ℝ) / 3) = (0, 1, 1, 1) := by
  unfold splineIndices
  rw [c6_jt23]
  decide

lemma c6_P0 : getPt c6Pts 0 = ((0 : ℝ), (0 : ℝ), (0.5 : ℝ)) := rfl

lemma c6_P1 : getPt c6Pts 1 = ((3 : ℝ), (0 : ℝ), (0.5 : ℝ)) := rfl

/-- The first resample's unit gradient on the C6 input is `(1, 0)`. -/
lemma c6_grad0 : vuni (xy (getSplinePointGradient c6Pts false 0)) = ((1 : ℝ), (0 : ℝ)) := by
  have hxy : xy (getSplinePointGradient c6Pts false 0) = ((3 / 2 : ℝ), (0 : ℝ)) := by
    simp only [getSplinePointGradient, c6_si0, c6_jt0]
    norm_num [xy, c6_P0, c6_P1, Prod.mk.injEq]
  rw [hxy]
  exact vuni_pos_x (3 / 2) (by norm_num)

/-- The second resample's unit gradient on the C6 input is `(-1, 0)`:
the duplicated boundary control points make the segment's tangent
reverse at parameter `2/3`. -/
lemma c6_grad23 : vuni (xy (getSplinePointGradient c6Pts false ((2 : ℝ) / 3)))
    = ((-1 : ℝ), (0 : ℝ)) := by
  have hxy : xy (getSplinePointGradient c6Pts false ((2 : ℝ) / 3)) = (-(1 / 2 : ℝ), (0 : ℝ)) := by
    simp only [getSplinePointGradient, c6_si23, c6_jt23]
    norm_num [xy, c6_P0, c6_P1, Prod.mk.injEq]
  rw [hxy]
  rw [show (-(1 / 2 : ℝ), (0 : ℝ)) = ((-(1 / 2) : ℝ), (0 : ℝ)) from rfl]
  exact vuni_neg_x (-(1 / 2)) (by norm_num)

lemma c6_seg : segLengths c6Pts = [(3 : ℝ)] := by
  have h9 : Real.sqrt 9 = 3 := by
    rw [show (9 : ℝ) = 3 ^ 2 by norm_num, Real.sqrt_sq (by norm_num)]
  show [vdist (xy ((0 : ℝ), (0 : ℝ), (0.5 : ℝ))) (xy ((3 : ℝ), (0 : ℝ), (0.5 : ℝ)))] = [(3 : ℝ)]
  norm_num [vdist, vlen, vsub, xy, h9]

lemma c6_cnt : sampleCount 0 3 ((8 : ℝ) / 4) = 2 := by
  unfold sampleCount
  rw [if_pos ⟨by norm_num, by norm_num⟩]
  norm_num

lemma applyShort_two (size : ℝ) (r0 r1 : Resample) (c0 c1 : ℝ)
    (h0 : ¬ size / 2 < c0) (h1 : ¬ size / 2 < c1) :
    applyShort size [(r0, c0), (r1, c1)] = [r0, r1] := by
  have hnone : shortIdx size [(r0, c0), (r1, c1)] = none := by
    simp only [shortIdx]
    rw [if_neg h0, if_neg h1]
    rfl
  unfold applyShort
  rw [hnone]
  rfl

/-- The raw resample list on the C6 input: two samples at parameters 0
and 2/3, at cumulative distances 0 and 2 (the 3-unit segment is not
zero-length, so the resampler succeeds). -/
lemma c6_raw : resampleGo c6Pts false 8 0 0 0 [(3 : ℝ)]
    = some
      [(⟨getSplinePoint c6Pts false 0, vuni (xy (getSplinePointGradient c6Pts false 0))⟩, 0),
       (⟨getSplinePoint c6Pts false ((2 : ℝ) / 3),
         vuni (xy (getSplinePointGradient c6Pts false ((2 : ℝ) / 3)))⟩, 2)] := by
  simp only [resampleGo, c6_cnt]
  rw [if_neg (by norm_num)]
  simp only [Option.map_some', show List.range 2 = [0, 1] from rfl,
    List.map_cons, List.map_nil, List.append_nil]
  norm_num [Prod.mk.injEq, Resample.mk.injEq]

/-- The samples entering the builder on the C6 input, with their
evaluated gradients. -/
lemma c6_samples : applyShort (8 : ℝ)
    [(⟨getSplinePoint c6Pts false 0, vuni (xy (getSplinePointGradient c6Pts false 0))⟩, 0),
     (⟨getSplinePoint c6Pts false ((2 : ℝ) / 3),
       vuni (xy (getSplinePointGradient c6Pts false ((2 : ℝ) / 3)))⟩, 2)]
    = [⟨getSplinePoint c6Pts false 0, ((1 : ℝ), (0 : ℝ))⟩,
       ⟨getSplinePoint c6Pts false ((2 : ℝ) / 3), ((-1 : ℝ), (0 : ℝ))⟩] := by
  rw [c6_grad0, c6_grad23]
  exact applyShort_two 8 _ _ 0 2 (by norm_num) (by norm_num)

/-- The results list on the C6 input (the final sample's folded
gradient is left unevaluated). -/
lemma c6_results : resampleResults c6Opts c6Pts
    = some ([⟨getSplinePoint c6Pts false 0, ((1 : ℝ), (0 : ℝ))⟩,
             ⟨getSplinePoint c6Pts false ((2 : ℝ) / 3), ((-1 : ℝ), (0 : ℝ))⟩]
        ++ [finalSample c6Opts c6Pts
              [⟨getSplinePoint c6Pts false 0, ((1 : ℝ), (0 : ℝ))⟩,
               ⟨getSplinePoint c6Pts false ((2 : ℝ) / 3), ((-1 : ℝ), (0 : ℝ))⟩]]) := by
  have h' : resampleGo c6Pts c6Opts.looped c6Opts.size 0 0 0 (segLengths c6Pts)
      = some
        [(⟨getSplinePoint c6Pts false 0, vuni (xy (getSplinePointGradient c6Pts false 0))⟩, 0),
         (⟨getSplinePoint c6Pts false ((2 : ℝ) / 3),
           vuni (xy (getSplinePointGradient c6Pts false ((2 : ℝ) / 3)))⟩, 2)] := by
    rw [show c6Opts.looped = false from rfl, show c6Opts.size = (8 : ℝ) from rfl, c6_seg]
    exact c6_raw
  rw [resampleResults_some_eq c6Opts c6Pts _ h',
    show c6Opts.size = (8 : ℝ) from rfl, c6_samples]

/-- Claim C6 says that *whenever* consecutive resample gradients have a
negative dot product the builder emits the five-point radial fans.  On
the concrete run with `c6Pts`/`c6Opts` the resampler succeeds and the
very first resample pair has gradients `(1, 0)` and `(-1, 0)` with dot
product `-1 < 0`, yet the first iteration of the build loop of
`getOutlineShape` — which is exactly the `buildStep` below, at `i = 0`
where the source's `if (i > 0 && dpr < 0)` guard fails — appends a
single vertex to the left spline instead of the `fanTs.length = 5` fan
points. -/
theorem c6_counterexample :
    vdpr ((1 : ℝ), (0 : ℝ)) ((-1 : ℝ), (0 : ℝ)) < 0 ∧
    (((resampleResults c6Opts (setupPoints c6Pts c6Opts)).getD []).get? 0).map Resample.gradient
        = some ((1 : ℝ), (0 : ℝ)) ∧
    (((resampleResults c6Opts (setupPoints c6Pts c6Opts)).getD []).get? 1).map Resample.gradient
        = some ((-1 : ℝ), (0 : ℝ)) ∧
    (buildStep c6Opts ((resampleResults c6Opts (setupPoints c6Pts c6Opts)).getD []).length (0, 0)
        (((resampleResults c6Opts (setupPoints c6Pts c6Opts)).getD []).headD defaultResample)
        ((((resampleResults c6Opts (setupPoints c6Pts c6Opts)).getD []).get? 1).getD
          defaultResample).gradient
        0 initState).left.length = 1 ∧
    fanTs.length = 5 := by
  rw [c6_setup]
  refine ⟨by norm_num [vdpr], ?_, ?_, ?_, rfl⟩
  · rw [c6_results]
    rfl
  · rw [c6_results]
    rfl
  · obtain ⟨a, b, hfl, _⟩ := buildStep_first c6Opts
      ((resampleResults c6Opts c6Pts).getD []).length (0, 0)
      (((resampleResults c6Opts c6Pts).getD []).headD defaultResample)
      ((((resampleResults c6Opts c6Pts).getD []).get? 1).getD defaultResample).gradient
      initState rfl rfl
    rw [hfl]
    rfl

end Freehand
